import Mathlib

/-!
Shallow embedding of the two source modules of the repository:

  * `gluon/seg_metrics_np.py` — numpy segmentation metrics.  Index masks
    (2-D integer arrays) become `List (List Int)`; one-hot masks (3-D 0/1
    arrays with the class axis leading) become `List (List (List Bool))`;
    a batch of one-hot masks (4-D) becomes a list of the latter.  Python
    floats are modelled by `ℚ` (all the arithmetic the claims touch is
    exact in binary floating point as well: sums of small integers and
    divisions that either yield exactly 1.0 or are compared to 1.0).
    `np.finfo(np.float32).eps` is the exact rational `2 ^ (-23)`.
    A Python exception (a failed `assert`, or a `ZeroDivisionError` from
    `float(x) / 0` with an `int` divisor) is modelled by `none`.

  * `tensorflow_/utils_tp.py` — training utilities.  Only the parts the
    claims are about are embedded: `prepare_tf_context`, `prepare_model`
    (with the file system as an explicit predicate and the externally
    observable call trace made explicit), and the size-level behaviour of
    `GoogleNetResize._augment` (random draws become explicit parameters;
    pixel contents are irrelevant to the claims, so images are modelled
    by their height/width pair).
-/

namespace SegMetrics

/-- A 2-D index mask: rows of per-pixel class identifiers (`np.array` of
integers).  `vague_idx` pixels carry a sentinel such as `-1`. -/
abbrev Imask := List (List Int)

/-- A 3-D one-hot mask: leading class axis, then the spatial rows.  The
spec fixes entries to 0/1, so a pixel membership bit is a `Bool`;
`np.sum` over a plane counts the set bits and `np.logical_and` is `&&`. -/
abbrev Hmask := List (List (List Bool))

/-- A 4-D batch of one-hot masks, shape `(batch, class, height, width)`. -/
abbrev Hmask4 := List Hmask

/-- The numpy shape of a 2-D mask, as the list of row lengths (two
rectangular arrays have equal numpy shapes iff these lists are equal). -/
def iShape (m : Imask) : List Nat := m.map (·.length)

/-- The numpy shape of a 3-D one-hot mask, as the nested row lengths. -/
def hShape (m : Hmask) : List (List Nat) := m.map (fun p => p.map (·.length))

/-- The numpy shape of a 4-D batch of one-hot masks. -/
def h4Shape (m : Hmask4) : List (List (List Nat)) := m.map hShape

/-- `m.flat`: the row-major flattening numpy iterates over. -/
def flatI (m : Imask) : List Int := m.flatten

/-- `m.size`: the total pixel count of a 2-D mask. -/
def iSize (m : Imask) : Nat := (flatI m).length

/-- `np.sum(plane)` for a 0/1 plane: the number of set bits. -/
def bSum (p : List (List Bool)) : Nat := p.flatten.countP id

/-- `np.sum(np.logical_and(a, b))` for two aligned 0/1 planes. -/
def bInter (a b : List (List Bool)) : Nat :=
  (a.flatten.zip b.flatten).countP (fun x => x.1 && x.2)

/--
`seg_pixel_accuracy_np(label_imask, pred_imask, vague_idx, use_vague)`
from `gluon/seg_metrics_np.py` lines 11-43.  `none` models the shape
`assert` failing, and also the `ZeroDivisionError` Python raises on the
`use_vague=False` path when `pred_imask.size == 0` (there `sum_u_ij` is a
plain `int`, so `float(sum_u_ii) / 0` raises; the explicit `== 0` guard
of the source exists only on the `use_vague=True` path).
-/
def seg_pixel_accuracy_np (label_imask pred_imask : Imask)
    (vague_idx : Int) (use_vague : Bool) : Option ℚ :=
  if iShape label_imask ≠ iShape pred_imask then none
  else if use_vague then
    let sum_u_ij : Nat := (flatI label_imask).countP (· ≠ vague_idx)
    if sum_u_ij = 0 then some 0
    else
      let sum_u_ii : Nat :=
        ((flatI pred_imask).zip (flatI label_imask)).countP
          (fun x => x.1 = x.2 ∧ x.2 ≠ vague_idx)
      some ((sum_u_ii : ℚ) / (sum_u_ij : ℚ))
  else
    let sum_u_ii : Nat :=
      ((flatI pred_imask).zip (flatI label_imask)).countP
        (fun x => x.1 = x.2)
    let sum_u_ij : Nat := iSize pred_imask
    if sum_u_ij = 0 then none
    else some ((sum_u_ii : ℚ) / (sum_u_ij : ℚ))

/-- One step of the per-class accumulation loop shared by the mean-accuracy
style functions: the accumulator is `(i_sum, acc_sum)`; a class with
ground-truth support `u_i = 0` is skipped (`continue`), otherwise the
per-class accuracy `u_ii / u_i` is added and the class counter bumped. -/
def maStep (acc : Nat × ℚ) (u_i u_ii : Nat) : Nat × ℚ :=
  if u_i = 0 then acc else (acc.1 + 1, acc.2 + (u_ii : ℚ) / (u_i : ℚ))

/-- The epilogue shared by the skip-based metrics: mean of the accumulated
per-class values when any class contributed, else the fallback `1.0`. -/
def maFinish (r : Nat × ℚ) : ℚ := if 0 < r.1 then r.2 / (r.1 : ℚ) else 1

/--
`segm_mean_accuracy_hmasks(label_hmask, pred_hmask)` from
`gluon/seg_metrics_np.py` lines 46-87: one-hot vs one-hot mean accuracy.
For class `i`: `class_i_pred_mask = pred_hmask[i]`,
`class_i_label_mask = label_hmask[i]`, `u_i = np.sum(label plane)`,
skipped when zero, `u_ii = np.sum(logical_and(pred plane, label plane))`.
`none` models the two shape asserts failing (the rank-3 assert holds by
type). -/
def segm_mean_accuracy_hmasks (label_hmask pred_hmask : Hmask) : Option ℚ :=
  if hShape pred_hmask ≠ hShape label_hmask then none
  else
    some (maFinish ((label_hmask.zip pred_hmask).foldl
      (fun acc lp => maStep acc (bSum lp.1) (bInter lp.2 lp.1)) (0, 0)))

/-- `(pred_imask == i)` as a 0/1 plane, and its intersection count with a
label plane: `np.sum(logical_and(pred_imask == i, label plane))`. -/
def iPlaneEq (m : Imask) (i : Int) : List (List Bool) :=
  m.map (fun row => row.map (fun v => v = i))

/--
`segm_mean_accuracy(label_hmask, pred_imask)` from
`gluon/seg_metrics_np.py` lines 90-132: one-hot label vs index-mask
prediction; the per-class prediction plane is `(pred_imask == i)` for the
0-based loop index `i`.  `none` models the asserts (`pred_imask.shape ==
label_hmask.shape[1:]`, i.e. every label plane has the shape of
`pred_imask`) failing; the rank asserts hold by type. -/
def segm_mean_accuracy (label_hmask : Hmask) (pred_imask : Imask) : Option ℚ :=
  if ¬ (label_hmask.all (fun p => p.map (·.length) = iShape pred_imask)) then none
  else
    some (maFinish ((label_hmask.enum.foldl
      (fun acc li =>
        maStep acc (bSum li.2) (bInter (iPlaneEq pred_imask (li.1 : Int)) li.2))
      (0, 0))))

/--
`segm_mean_iou_imasks(label_hmask, pred_hmask)` from
`gluon/seg_metrics_np.py` lines 135-176.  Despite its name and docstring
the body is byte-identical to `segm_mean_accuracy_hmasks`; it is embedded
as its own definition with the same body, mirroring the source. -/
def segm_mean_iou_imasks (label_hmask pred_hmask : Hmask) : Option ℚ :=
  if hShape pred_hmask ≠ hShape label_hmask then none
  else
    some (maFinish ((label_hmask.zip pred_hmask).foldl
      (fun acc lp => maStep acc (bSum lp.1) (bInter lp.2 lp.1)) (0, 0)))

/-- One step of the per-class IoU loop of `seg_mean_iou_np`: a class with
`u_i + u_ji_sj = 0` is skipped, otherwise `u_ii / (u_i + u_ji_sj - u_ii)`
is accumulated (the subtraction stays in `Nat`: `u_ii` is an intersection
count, bounded by each of its arguments). -/
def miouStep (acc : Nat × ℚ) (u_i u_ji_sj u_ii : Nat) : Nat × ℚ :=
  if u_i + u_ji_sj = 0 then acc
  else (acc.1 + 1, acc.2 + (u_ii : ℚ) / ((u_i + u_ji_sj - u_ii : Nat) : ℚ))

/--
`seg_mean_iou_np(label_hmask, pred_imask)` from
`gluon/seg_metrics_np.py` lines 179-221: skip-based mean IoU, one-hot
label vs index-mask prediction.  `u_ji_sj = np.sum(pred_imask == i)`.
`none` models the shape asserts failing. -/
def seg_mean_iou_np (label_hmask : Hmask) (pred_imask : Imask) : Option ℚ :=
  if ¬ (label_hmask.all (fun p => p.map (·.length) = iShape pred_imask)) then none
  else
    some (maFinish ((label_hmask.enum.foldl
      (fun acc li =>
        let predPlane := iPlaneEq pred_imask (li.1 : Int)
        miouStep acc (bSum li.2) (bSum predPlane) (bInter predPlane li.2))
      (0, 0))))

/-- `np.finfo(np.float32).eps`, exactly `2 ^ (-23)`. -/
def f32eps : ℚ := 1 / 8388608

/-- The per-sample value `acc_iou / class_count` computed by
`segm_mean_iou2` for one `(label, pred)` pair of one-hot masks:
`class_count = #\x7bi | u_i + u_ji_sj > 0\x7d + eps`,
`class_acc_i = u_ii / (u_i + u_ji_sj - u_ii + eps)` (the product of two
0/1 planes is their logical and), `acc_iou = sum class_acc + eps`. -/
def miou2Sample (lp : Hmask × Hmask) : ℚ :=
  let stats := (lp.1.zip lp.2).map
    (fun planes => (bSum planes.1, bSum planes.2, bInter planes.1 planes.2))
  let class_count : ℚ :=
    ((stats.countP (fun s => 0 < s.1 + s.2.1)) : ℚ) + f32eps
  let acc_iou : ℚ :=
    (stats.map (fun s =>
      (s.2.2 : ℚ) / ((s.1 : ℚ) + (s.2.1 : ℚ) - (s.2.2 : ℚ) + f32eps))).sum + f32eps
  acc_iou / class_count

/--
`segm_mean_iou2(label_hmask, pred_hmask)` from
`gluon/seg_metrics_np.py` lines 224-257: epsilon-smoothed batched mean
IoU over 4-D one-hot masks, class axis 1.  Per sample, per class:
`u_i`, `u_ji_sj`, `u_ii` are the spatial sums of the label plane, the
prediction plane and their product; every denominator and the per-sample
class count get `eps` added; the per-sample ratios are averaged over the
batch (`.mean()`; an empty batch has no mean, modelled `none`).
`none` also models the shape asserts failing. -/
def segm_mean_iou2 (label_hmask pred_hmask : Hmask4) : Option ℚ :=
  if h4Shape pred_hmask ≠ h4Shape label_hmask then none
  else if label_hmask.length = 0 then none
  else
    some (((label_hmask.zip pred_hmask).map miou2Sample).sum /
      (label_hmask.length : ℚ))

/--
The per-bin pixel counts `np.histogram(data, bins=nbins, range=(1, maxi))`
returns in `seg_mean_iou_imasks_np`, where `maxi = nbins` and the data are
integers.  numpy places the bin edges uniformly over `[1, nbins]` (and
widens a degenerate `(1, 1)` range to `(0.5, 1.5)`); for integer data this
puts every value `v ∈ [1, nbins]` alone in bin `v - 1` and drops values
outside `[1, nbins]`: for `1 ≤ v < nbins` the edge index is
`⌊(v-1)·nbins/(nbins-1)⌋ = v - 1` since `(v-1)·nbins < v·(nbins-1)` iff
`v < nbins`, and `v = nbins` falls in the closed last bin. -/
def histBins (data : List Int) (nbins : Nat) : List Nat :=
  (List.range nbins).map (fun (k : Nat) => data.count ((k : Int) + 1))

/-- Elementwise combination of two aligned 2-D masks. -/
def iMap2 (f : Int → Int → Int) (a b : Imask) : Imask :=
  List.zipWith (List.zipWith f) a b

/-- `intersection = pred_imask * (pred_imask == label_imask)`:
elementwise, the prediction value where it agrees with the label, else
`0` (value times a 0/1 boolean). -/
def interMask (pred label : Imask) : Imask :=
  iMap2 (fun p l => if p = l then p else 0) pred label

/-- `m + 1` elementwise: the array the in-place `+= 1` of
`seg_mean_iou_imasks_np` leaves behind. -/
def incrMask (m : Imask) : Imask := m.map (fun row => row.map (· + 1))

/-- The `(label, pred)` pair the histogram step of `seg_mean_iou_imasks_np`
sees: with `ignore_bg` the label is untouched and the prediction is zeroed
outside the foreground-labelled region (`pred * (label > 0)`); otherwise
both are shifted up by one and, should negative labels remain afterwards,
the prediction is zeroed where the shifted label is negative
(`pred * (label >= 0)`). -/
def shiftMasks (label_imask pred_imask : Imask) (ignore_bg : Bool) :
    Imask × Imask :=
  if ignore_bg then
    (label_imask,
     iMap2 (fun p l => if 0 < l then p else 0) pred_imask label_imask)
  else
    let label2 := incrMask label_imask
    let pred2 := incrMask pred_imask
    if (flatI label2).any (· < 0) then
      (label2, iMap2 (fun p l => if 0 ≤ l then p else 0) pred2 label2)
    else (label2, pred2)

/-- The arrays the caller of `seg_mean_iou_imasks_np` holds after the
call: the `ignore_bg=False` path runs the in-place `label_imask += 1`
and `pred_imask += 1` on the arguments; all other rebindings create
fresh arrays. -/
def callerMasks (label_imask pred_imask : Imask) (ignore_bg : Bool) :
    Imask × Imask :=
  if ignore_bg then (label_imask, pred_imask)
  else (incrMask label_imask, incrMask pred_imask)

/-- The per-bin IoU terms `area_inter / area_union` of
`seg_mean_iou_imasks_np`, `area_union = area_pred + area_label -
area_inter + eps`, from the three histograms of the shifted masks. -/
def histTerms (label' pred' : Imask) (nbins : Nat) : List ℚ :=
  let area_inter := histBins (flatI (interMask pred' label')) nbins
  let area_pred := histBins (flatI pred') nbins
  let area_label := histBins (flatI label') nbins
  (area_inter.zip (area_pred.zip area_label)).map
    (fun a => (a.1 : ℚ) / ((a.2.1 : ℚ) + (a.2.2 : ℚ) - (a.1 : ℚ) + f32eps))

/--
`seg_mean_iou_imasks_np(label_imask, pred_imask, num_classes, ignore_bg)`
from `gluon/seg_metrics_np.py` lines 260-311, embedded with explicit
state passing: the result is `(mean_iou, label_after, pred_after)` where
the two masks are the arrays the CALLER holds after the call (the
arguments are assumed not to alias each other, as distinct numpy arrays).
On the `ignore_bg=False` path the source executes `label_imask += 1` and
`pred_imask += 1`, numpy in-place additions that mutate the arguments the
caller passed in; every other rebinding (`pred_imask = pred_imask * ...`)
is a fresh array and invisible to the caller.  `none` models the shape
asserts failing and the `ValueError` `np.histogram` raises when
`nbins = 0` (`num_classes = 0`, or `1` with `ignore_bg`).  The final
`mean_iou` is `(area_inter / area_union).mean()`: the per-bin sum divided
by the bin count `nbins`. -/
def nbinsOf (num_classes : Nat) (ignore_bg : Bool) : Nat :=
  if ignore_bg then num_classes - 1 else num_classes

def seg_mean_iou_imasks_np (label_imask pred_imask : Imask)
    (num_classes : Nat) (ignore_bg : Bool) : Option (ℚ × Imask × Imask) :=
  if iShape label_imask ≠ iShape pred_imask then none
  else
    let nbins := nbinsOf num_classes ignore_bg
    if nbins = 0 then none
    else
      let shifted := shiftMasks label_imask pred_imask ignore_bg
      let caller := callerMasks label_imask pred_imask ignore_bg
      some ((histTerms shifted.1 shifted.2 nbins).sum / (nbins : ℚ),
        caller.1, caller.2)

/-! ### Claim-level specification formulas

The definitions below restate, in the words of the specification, what
the metric functions are claimed to compute; the theorems relate the
source embeddings above to them. -/

/-- The specified mean accuracy over a list of per-class
`(ground-truth count u_i, intersection count u_ii)` pairs: the mean of
`u_ii / u_i` over the classes with `u_i ≠ 0`, classes with `u_i = 0`
contributing neither to the sum nor to the averaging denominator, and
`1` when no class has support. -/
def meanAccSpec (cs : List (Nat × Nat)) : ℚ :=
  let sup := cs.filter (fun c => c.1 ≠ 0)
  if sup.isEmpty then 1
  else (sup.map (fun c => (c.2 : ℚ) / (c.1 : ℚ))).sum / (sup.length : ℚ)

/-- The per-class `(u_i, u_ii)` pairs of the one-hot vs one-hot
mean-accuracy variants. -/
def hmaskClassCounts (label_hmask pred_hmask : Hmask) : List (Nat × Nat) :=
  (label_hmask.zip pred_hmask).map (fun lp => (bSum lp.1, bInter lp.2 lp.1))

/-- The per-class `(u_i, u_ii)` pairs of the one-hot vs index-mask
mean-accuracy variant: class `i` is predicted where `pred_imask == i`. -/
def imaskClassCounts (label_hmask : Hmask) (pred_imask : Imask) :
    List (Nat × Nat) :=
  label_hmask.enum.map (fun li =>
    (bSum li.2, bInter (iPlaneEq pred_imask (li.1 : Int)) li.2))

/-- The specified skip-based mean IoU over per-class
`(u_i, u_ji_sj, u_ii)` triples: classes with `u_i + u_ji_sj = 0` are
excluded from sum and denominator, the rest contribute
`u_ii / (u_i + u_ji_sj - u_ii)`; `1` when no class contributes. -/
def meanIouSpec (cs : List (Nat × Nat × Nat)) : ℚ :=
  let sup := cs.filter (fun c => c.1 + c.2.1 ≠ 0)
  if sup.isEmpty then 1
  else
    (sup.map (fun c =>
      (c.2.2 : ℚ) / ((c.1 + c.2.1 - c.2.2 : Nat) : ℚ))).sum / (sup.length : ℚ)

/-- The per-class `(u_i, u_ji_sj, u_ii)` triples of `seg_mean_iou_np`. -/
def miouClassCounts (label_hmask : Hmask) (pred_imask : Imask) :
    List (Nat × Nat × Nat) :=
  label_hmask.enum.map (fun li =>
    (bSum li.2, bSum (iPlaneEq pred_imask (li.1 : Int)),
     bInter (iPlaneEq pred_imask (li.1 : Int)) li.2))

/-- The canonical one-hot encoding of an index mask over `n` classes
(spec data model: plane `i` is the 0/1 indicator of `pixel == i`).  A
prediction index mask identical to a one-hot label mask means the label
is `onehotOf n pred`. -/
def onehotOf (n : Nat) (m : Imask) : Hmask :=
  (List.range n).map (fun (i : Nat) => iPlaneEq m (i : Int))

/-- The number of pixel positions where the prediction and the label both
carry class value `v` — the direct, histogram-free reading of the
per-bin intersection count of the C6 claim. -/
def interPairCount (pred label : Imask) (v : Int) : Nat :=
  ((flatI pred).zip (flatI label)).countP (fun x => x.1 = v ∧ x.2 = v)

/-- The C6 claim formula for the (already shifted) masks: the mean over
ALL `nbins` histogram bins — zero-support bins included in the averaging
denominator — of `I / (P + L - I + eps)`, where for bin `c` the counts
`I`, `P`, `L` are the pixels of class `c + 1` in both masks, in the
prediction, and in the label, and `eps` is the float32 machine epsilon. -/
def miouHistFormula (label' pred' : Imask) (nbins : Nat) : ℚ :=
  ((List.range nbins).map (fun (c : Nat) =>
    let I := interPairCount pred' label' ((c : Int) + 1)
    let P := (flatI pred').count ((c : Int) + 1)
    let L := (flatI label').count ((c : Int) + 1)
    (I : ℚ) / ((P : ℚ) + (L : ℚ) - (I : ℚ) + f32eps))).sum / (nbins : ℚ)

end SegMetrics

namespace TFUtils

/--
`prepare_tf_context(num_gpus, batch_size)` from
`tensorflow_/utils_tp.py` lines 220-223:
`batch_size *= max(1, num_gpus); return batch_size`.
Python integers are unbounded, hence `Int`. -/
def prepare_tf_context (num_gpus batch_size : Int) : Int :=
  batch_size * max 1 num_gpus

/-- Modelled from the spec: the network object the external model registry
(`get_model` from `model_provider`, repository code not under `src/`)
returns — "a lookup function taking a model name and keyword configuration
(`pretrained`: boolean, `classes`: integer class count) and returning a
constructed network object".  Only its identity matters to the claims. -/
structure NetFn where
  model_name : String
  pretrained : Bool
  classes : Nat
deriving DecidableEq, Repr

/-- Modelled from the spec: the external model registry lookup. -/
def get_model (model_name : String) (pretrained : Bool) (classes : Nat) :
    NetFn :=
  { model_name := model_name, pretrained := pretrained, classes := classes }

/-- The wrapped model `ImageNetModel(model_lambda=net)` of
`tensorflow_/utils_tp.py` lines 19-61: constructing it only stores
configuration; the graph is built later by `build_graph`. -/
structure ImageNetModel where
  model_lambda : NetFn
deriving DecidableEq, Repr

/-- The weight-loader reference `get_model_loader(path)` of the external
training framework: a handle naming the checkpoint file. -/
structure ModelLoader where
  file_path : String
deriving DecidableEq, Repr

/-- The externally observable calls `prepare_model` can make, in program
order.  `buildGraphCall` is the graph-construction entry point
(`ImageNetModel.build_graph`); `prepare_model` itself never invokes it. -/
inductive PrepEvent
  | getModelCall
  | wrapModel
  | isfileCheck
  | getModelLoaderCall
  | buildGraphCall
deriving DecidableEq, Repr

/-- The failed `assert os.path.isfile(...)` of `prepare_model`. -/
inductive PyError
  | assertionError
deriving DecidableEq, Repr

/--
`prepare_model(model_name, classes, use_pretrained,
pretrained_model_file_path)` from `tensorflow_/utils_tp.py` lines
226-242, with the file system passed explicitly as the predicate `fs`
(`os.path.isfile`) and the trace of external calls made explicit.  The
source looks the network up, wraps it, and only when the path is truthy
(a non-empty string) checks `os.path.isfile` — aborting with an
`AssertionError` when the file is missing — and builds the loader.  It
returns `(net, inputs_desc)` where `inputs_desc` is `None` when no path
was given. -/
def prepare_model (fs : String → Bool) (model_name : String) (classes : Nat)
    (use_pretrained : Bool) (pretrained_model_file_path : String) :
    Except PyError (ImageNetModel × Option ModelLoader) × List PrepEvent :=
  let net : ImageNetModel := ⟨get_model model_name use_pretrained classes⟩
  if pretrained_model_file_path ≠ "" then
    if fs pretrained_model_file_path then
      (.ok (net, some ⟨pretrained_model_file_path⟩),
        [.getModelCall, .wrapModel, .isfileCheck, .getModelLoaderCall])
    else
      (.error .assertionError, [.getModelCall, .wrapModel, .isfileCheck])
  else
    (.ok (net, none), [.getModelCall, .wrapModel])

/-- `GoogleNetResize` configuration, `tensorflow_/utils_tp.py` lines
154-162 (defaults `0.08`, `0.75`, `1.333`, `224`). -/
structure GoogleNetResize where
  crop_area_fraction : ℚ
  aspect_ratio_low : ℚ
  aspect_ratio_high : ℚ
  target_shape : Nat
deriving DecidableEq, Repr

/-- The integer outcome of one iteration of the crop-attempt loop of
`GoogleNetResize._augment`: `ww`/`hh` are the candidate crop width and
height after the `int(sqrt(...) + 0.5)` rounding and the optional 50%
swap, and `x1`/`y1` the offsets `rng.randint` would draw if the candidate
fits.  Quantifying over these values embeds "for every outcome of the
random draws". -/
structure CropAttempt where
  ww : Nat
  hh : Nat
  x1 : Nat
  y1 : Nat
deriving DecidableEq, Repr

/-- What the drawing process guarantees about one attempt against an
`h × w` image: the rounded candidate sides are at least 1 (the target
area is at least `crop_area_fraction` of a nonzero image area), and when
the candidate fits, `x1 = 0` if `w == ww` else `x1 ∈ [0, w - ww)` (and
likewise `y1`), so the crop window lies inside the image. -/
def CropAttempt.fitsDraw (a : CropAttempt) (h w : Nat) : Prop :=
  1 ≤ a.ww ∧ 1 ≤ a.hh ∧
    (a.hh ≤ h ∧ a.ww ≤ w → a.y1 + a.hh ≤ h ∧ a.x1 + a.ww ≤ w)

/-- `cv2.resize(src, dsize)` at the size level: the output has exactly the
requested width and height; an empty source raises (`none`). -/
def cv2_resize (src : Nat × Nat) (dsize : Nat × Nat) : Option (Nat × Nat) :=
  if src.1 = 0 ∨ src.2 = 0 then none else some (dsize.2, dsize.1)

/-- `imgaug.ResizeShortestEdge(size)` of the external dataflow library at
the size level: `scale = size / min(h, w)`; the shorter side becomes
`size`, the longer `int(scale * longer + 0.5)`, which over the rationals
is `⌊(2 * size * longer + shorter) / (2 * shorter)⌋`.  A zero-sized image
raises (`none`). -/
def resizeShortestEdge (size : Nat) (hw : Nat × Nat) : Option (Nat × Nat) :=
  if hw.1 = 0 ∨ hw.2 = 0 then none
  else if hw.1 < hw.2 then
    some (size, (2 * size * hw.2 + hw.1) / (2 * hw.1))
  else
    some ((2 * size * hw.1 + hw.2) / (2 * hw.2), size)

/-- `imgaug.CenterCrop(size)` of the external dataflow library at the size
level: a `size × size` central window; it asserts both sides are at least
`size` (`none` otherwise). -/
def centerCrop (size : Nat) (hw : Nat × Nat) : Option (Nat × Nat) :=
  if size ≤ hw.1 ∧ size ≤ hw.2 then some (size, size) else none

/--
`GoogleNetResize._augment(img, _)` from `tensorflow_/utils_tp.py` lines
164-182, at the size level (`hw` is the image `(height, width)`; pixel
content does not affect output dimensions).  The loop over
`range(10)` becomes recursion over the list of drawn attempts (a real
run draws exactly 10): the first candidate with `hh <= h and ww <= w` is
cropped — numpy slicing `img[y1:y1+hh, x1:x1+ww]` clamps to the image —
and resized to `(target_shape, target_shape)`; if no attempt fits, the
fallback resizes the shortest edge to `target_shape` and center-crops. -/
def GoogleNetResize.augment (self : GoogleNetResize) (hw : Nat × Nat)
    (draws : List CropAttempt) : Option (Nat × Nat) :=
  match draws with
  | [] =>
    match resizeShortestEdge self.target_shape hw with
    | none => none
    | some hw2 => centerCrop self.target_shape hw2
  | a :: rest =>
    if a.hh ≤ hw.1 ∧ a.ww ≤ hw.2 then
      let crop : Nat × Nat :=
        (min (a.y1 + a.hh) hw.1 - min a.y1 hw.1,
         min (a.x1 + a.ww) hw.2 - min a.x1 hw.2)
      cv2_resize crop (self.target_shape, self.target_shape)
    else GoogleNetResize.augment self hw rest

end TFUtils

/-! ### Helper lemmas -/

namespace SegMetrics

lemma iSize_eq_sum (m : Imask) : iSize m = (iShape m).sum := by
  simp [iSize, iShape, flatI, List.length_flatten]

lemma flatI_eq_nil (m : Imask) (h : iSize m = 0) : flatI m = [] :=
  List.eq_nil_of_length_eq_zero h

lemma zip_self {α : Type _} (l : List α) :
    l.zip l = l.map (fun a => (a, a)) := by
  rw [List.zip_eq_zipWith, List.zipWith_same]

lemma bInter_self (p : List (List Bool)) : bInter p p = bSum p := by
  unfold bInter bSum
  rw [zip_self, List.countP_map]
  refine List.countP_congr (fun b _ => ?_)
  simp [Function.comp]

end SegMetrics

namespace TFUtils

end TFUtils

/-! ### Claim theorems -/

open SegMetrics TFUtils

/-- C7: `prepare_tf_context(num_gpus, batch_size)` returns
`batch_size * max(1, num_gpus)`; in particular `prepare_tf_context(0, 32)
= 32` and `prepare_tf_context(4, 32) = 128`. -/
theorem c7_prepare_tf_context_global_batch (num_gpus batch_size : Int) :
    prepare_tf_context num_gpus batch_size = batch_size * max 1 num_gpus ∧
    prepare_tf_context 0 32 = 32 ∧
    prepare_tf_context 4 32 = 128 :=
  ⟨rfl, by decide, by decide⟩

/-- C5: `segm_mean_accuracy_hmasks` and `segm_mean_iou_imasks` agree on
every pair of one-hot masks (the source bodies are byte-identical). -/
theorem c5_duplicate_mean_accuracy_functions (label_hmask pred_hmask : Hmask) :
    segm_mean_accuracy_hmasks label_hmask pred_hmask =
      segm_mean_iou_imasks label_hmask pred_hmask := rfl

/-- C10: on empty equal-shape masks, `seg_pixel_accuracy_np` with
`use_vague=False` hits a division by a zero total pixel count and fails,
while `use_vague=True` returns `0.0`: the zero-denominator guard exists
only on the vague path. -/
theorem c10_empty_mask_division_guard (label_imask pred_imask : Imask)
    (vague_idx : Int) (hsh : iShape label_imask = iShape pred_imask)
    (hz : iSize pred_imask = 0) :
    seg_pixel_accuracy_np label_imask pred_imask vague_idx false = none ∧
    seg_pixel_accuracy_np label_imask pred_imask vague_idx true = some 0 := by
  have hzl : iSize label_imask = 0 := by
    rw [iSize_eq_sum, hsh, ← iSize_eq_sum, hz]
  have hl : flatI label_imask = [] := flatI_eq_nil _ hzl
  constructor
  · simp [seg_pixel_accuracy_np, hsh, hz, iSize] at *
    simp [hz]
  · simp [seg_pixel_accuracy_np, hsh, hl]

/-- C10 witness at the empty mask. -/
theorem c10_empty_mask_division_guard_witness :
    seg_pixel_accuracy_np [] [] (-1) false = none ∧
    seg_pixel_accuracy_np [] [] (-1) true = some 0 :=
  c10_empty_mask_division_guard [] [] (-1) rfl rfl

/-- C3: `seg_pixel_accuracy_np` on equal-shape masks computes, with
`use_vague=False`, matches divided by total pixel count (the total being
positive; the empty case is claim C10); with `use_vague=True`, matches on
non-vague label pixels divided by the count of non-vague label pixels,
returning `0.0` without raising when that count is zero. -/
theorem c3_pixel_accuracy_formula (label_imask pred_imask : Imask)
    (vague_idx : Int) (hsh : iShape label_imask = iShape pred_imask) :
    (0 < iSize pred_imask →
      seg_pixel_accuracy_np label_imask pred_imask vague_idx false =
        some
          ((((flatI pred_imask).zip (flatI label_imask)).countP
              (fun x => x.1 = x.2) : ℚ) / (iSize pred_imask : ℚ))) ∧
    (seg_pixel_accuracy_np label_imask pred_imask vague_idx true =
      if (flatI label_imask).countP (· ≠ vague_idx) = 0 then some 0
      else
        some
          ((((flatI pred_imask).zip (flatI label_imask)).countP
              (fun x => x.1 = x.2 ∧ x.2 ≠ vague_idx) : ℚ) /
            ((flatI label_imask).countP (· ≠ vague_idx) : ℚ))) := by
  constructor
  · intro hpos
    simp only [seg_pixel_accuracy_np, hsh, ne_eq, not_true_eq_false,
      if_false, ite_not]
    rw [if_neg (by omega : ¬ iSize pred_imask = 0)]
    simp
  · simp only [seg_pixel_accuracy_np, hsh, ne_eq, not_true_eq_false,
      if_false, ite_not]
    split <;> simp_all

/-- C3 witness on a 2×2 mask with one vague pixel. -/
theorem c3_pixel_accuracy_formula_witness :
    0 < iSize ([[0, 1], [1, 1]] : Imask) ∧
    ((0 < iSize ([[0, 1], [1, 1]] : Imask) →
      seg_pixel_accuracy_np [[-1, 1], [2, 1]] [[0, 1], [1, 1]] (-1) false =
        some
          ((((flatI ([[0, 1], [1, 1]] : Imask)).zip
                (flatI ([[-1, 1], [2, 1]] : Imask))).countP
              (fun x => x.1 = x.2) : ℚ) /
            (iSize ([[0, 1], [1, 1]] : Imask) : ℚ))) ∧
      (seg_pixel_accuracy_np [[-1, 1], [2, 1]] [[0, 1], [1, 1]] (-1) true =
        if (flatI ([[-1, 1], [2, 1]] : Imask)).countP (· ≠ (-1 : Int)) = 0 then
          some 0
        else
          some
            ((((flatI ([[0, 1], [1, 1]] : Imask)).zip
                  (flatI ([[-1, 1], [2, 1]] : Imask))).countP
                (fun x => x.1 = x.2 ∧ x.2 ≠ (-1 : Int)) : ℚ) /
              ((flatI ([[-1, 1], [2, 1]] : Imask)).countP
                (· ≠ (-1 : Int)) : ℚ)))) :=
  ⟨by decide, c3_pixel_accuracy_formula [[-1, 1], [2, 1]] [[0, 1], [1, 1]] (-1) rfl⟩

/-- C8: with a non-empty `pretrained_model_file_path` naming no existing
file, `prepare_model` fails with an assertion-style missing-file error and
its call trace contains no graph construction; with an existing file it
returns the wrapped model together with a loader reference for that path;
with no path the loader reference is absent. -/
theorem c8_prepare_model_missing_file (fs : String → Bool)
    (model_name : String) (classes : Nat) (use_pretrained : Bool)
    (path : String) :
    (path ≠ "" → fs path = false →
      (prepare_model fs model_name classes use_pretrained path).1 =
          .error .assertionError ∧
        PrepEvent.buildGraphCall ∉
          (prepare_model fs model_name classes use_pretrained path).2) ∧
    (path ≠ "" → fs path = true →
      (prepare_model fs model_name classes use_pretrained path).1 =
        .ok (⟨get_model model_name use_pretrained classes⟩, some ⟨path⟩)) ∧
    (path = "" →
      (prepare_model fs model_name classes use_pretrained path).1 =
        .ok (⟨get_model model_name use_pretrained classes⟩, none)) := by
  refine ⟨fun hp hf => ?_, fun hp hf => ?_, fun hp => ?_⟩
  · simp [prepare_model, hp, hf]
  · simp [prepare_model, hp, hf]
  · simp [prepare_model, hp]

/-- C8 witness: a one-file file system, a missing path, a present path,
and the empty path. -/
theorem c8_prepare_model_missing_file_witness :
    ((prepare_model (fun s => s == "w.npz") "resnet" 10 false "gone.npz").1 =
        .error .assertionError ∧
      PrepEvent.buildGraphCall ∉
        (prepare_model (fun s => s == "w.npz") "resnet" 10 false "gone.npz").2) ∧
    (prepare_model (fun s => s == "w.npz") "resnet" 10 false "w.npz").1 =
      .ok (⟨get_model "resnet" false 10⟩, some ⟨"w.npz"⟩) ∧
    (prepare_model (fun s => s == "w.npz") "resnet" 10 false "").1 =
      .ok (⟨get_model "resnet" false 10⟩, none) :=
  ⟨(c8_prepare_model_missing_file (fun s => s == "w.npz") "resnet" 10 false
      "gone.npz").1 (by decide) rfl,
   (c8_prepare_model_missing_file (fun s => s == "w.npz") "resnet" 10 false
      "w.npz").2.1 (by decide) rfl,
   (c8_prepare_model_missing_file (fun s => s == "w.npz") "resnet" 10 false
      "").2.2 rfl⟩

namespace TFUtils

lemma resizeShortestEdge_ge (size : Nat) (hw : Nat × Nat)
    (hs : 1 ≤ size) (h1 : size ≤ hw.1) (h2 : size ≤ hw.2) :
    ∃ h w, resizeShortestEdge size hw = some (h, w) ∧ size ≤ h ∧ size ≤ w := by
  have hn1 : ¬ (hw.1 = 0 ∨ hw.2 = 0) := by omega
  unfold resizeShortestEdge
  rw [if_neg hn1]
  by_cases hlt : hw.1 < hw.2
  · refine ⟨size, (2 * size * hw.2 + hw.1) / (2 * hw.1), by rw [if_pos hlt],
      le_refl _, ?_⟩
    rw [Nat.le_div_iff_mul_le (by omega)]
    calc size * (2 * hw.1) = 2 * size * hw.1 := by ring
      _ ≤ 2 * size * hw.2 := Nat.mul_le_mul_left _ (by omega)
      _ ≤ 2 * size * hw.2 + hw.1 := Nat.le_add_right _ _
  · refine ⟨(2 * size * hw.1 + hw.2) / (2 * hw.2), size, by rw [if_neg hlt],
      ?_, le_refl _⟩
    rw [Nat.le_div_iff_mul_le (by omega)]
    calc size * (2 * hw.2) = 2 * size * hw.2 := by ring
      _ ≤ 2 * size * hw.1 := Nat.mul_le_mul_left _ (by omega)
      _ ≤ 2 * size * hw.1 + hw.2 := Nat.le_add_right _ _

end TFUtils

/-- C9: for an input image at least as large as the configured output
size, `GoogleNetResize._augment` returns exactly the square output size
for every outcome of its random draws: a fitting candidate is cropped and
resized to the output size, and when no drawn candidate fits, the
fallback (shortest edge to output size, then central square crop)
produces the output size as well. -/
theorem c9_googlenet_resize_output_size (aug : GoogleNetResize)
    (hw : Nat × Nat) (draws : List CropAttempt)
    (hs : 1 ≤ aug.target_shape)
    (hh : aug.target_shape ≤ hw.1) (hww : aug.target_shape ≤ hw.2)
    (hdraws : ∀ a ∈ draws, a.fitsDraw hw.1 hw.2) :
    aug.augment hw draws = some (aug.target_shape, aug.target_shape) := by
  induction draws with
  | nil =>
    obtain ⟨h2, w2, he, hh2, hw2⟩ :=
      resizeShortestEdge_ge aug.target_shape hw hs hh hww
    unfold GoogleNetResize.augment
    rw [he]
    simp [centerCrop, hh2, hw2]
  | cons a rest ih =>
    unfold GoogleNetResize.augment
    by_cases hfit : a.hh ≤ hw.1 ∧ a.ww ≤ hw.2
    · rw [if_pos hfit]
      obtain ⟨hw1, hh1, hbound⟩ := hdraws a (List.mem_cons_self a rest)
      obtain ⟨hy, hx⟩ := hbound hfit
      have e1 : min (a.y1 + a.hh) hw.1 - min a.y1 hw.1 = a.hh := by omega
      have e2 : min (a.x1 + a.ww) hw.2 - min a.x1 hw.2 = a.ww := by omega
      rw [e1, e2]
      simp only [cv2_resize]
      rw [if_neg (by omega)]
    · rw [if_neg hfit]
      exact ih (fun b hb => hdraws b (List.mem_cons_of_mem a hb))

/-- C9 witness: the default 224 configuration on a 300×250 image, one
drawn candidate that fits and one that does not. -/
theorem c9_googlenet_resize_output_size_witness :
    GoogleNetResize.augment ⟨8/100, 3/4, 1333/1000, 224⟩ (300, 250)
      [⟨400, 500, 0, 0⟩, ⟨100, 50, 10, 20⟩] = some (224, 224) :=
  c9_googlenet_resize_output_size ⟨8/100, 3/4, 1333/1000, 224⟩ (300, 250)
    [⟨400, 500, 0, 0⟩, ⟨100, 50, 10, 20⟩] (by decide) (by decide) (by decide)
    (by
      intro a ha
      simp only [List.mem_cons, List.mem_singleton] at ha
      rcases ha with h | h | h
      · subst h; unfold CropAttempt.fitsDraw; decide
      · subst h; unfold CropAttempt.fitsDraw; decide
      · cases h)

namespace SegMetrics

lemma maStep_foldl : ∀ (cs : List (Nat × Nat)) (a : Nat) (b : ℚ),
    cs.foldl (fun acc c => maStep acc c.1 c.2) (a, b)
      = (a + (cs.filter (fun c => c.1 ≠ 0)).length,
         b + ((cs.filter (fun c => c.1 ≠ 0)).map
            (fun c => (c.2 : ℚ) / (c.1 : ℚ))).sum)
  | [], a, b => by simp
  | c :: cs, a, b => by
    rw [List.foldl_cons]
    by_cases h : c.1 = 0
    · rw [show maStep (a, b) c.1 c.2 = (a, b) by simp [maStep, h]]
      rw [maStep_foldl cs a b,
        List.filter_cons_of_neg (by simp [h])]
    · rw [show maStep (a, b) c.1 c.2 = (a + 1, b + (c.2 : ℚ) / (c.1 : ℚ)) by
        simp [maStep, h]]
      rw [maStep_foldl cs (a + 1) (b + (c.2 : ℚ) / (c.1 : ℚ)),
        List.filter_cons_of_pos (by simp [h])]
      rw [List.length_cons, List.map_cons, List.sum_cons]
      refine Prod.ext (by omega) ?_
      simp only
      ring

lemma maFinish_foldl (cs : List (Nat × Nat)) :
    maFinish (cs.foldl (fun acc c => maStep acc c.1 c.2) (0, 0)) =
      meanAccSpec cs := by
  rw [maStep_foldl]
  unfold maFinish meanAccSpec
  simp only [Nat.zero_add, zero_add]
  by_cases h : (List.filter (fun c => decide (c.1 ≠ 0)) cs).length = 0
  · rw [if_neg (by omega),
      if_pos (by rw [List.isEmpty_iff_length_eq_zero]; exact h)]
  · rw [if_pos (by omega),
      if_neg (by rw [List.isEmpty_iff_length_eq_zero]; exact h)]

lemma miouStep_foldl : ∀ (cs : List (Nat × Nat × Nat)) (a : Nat) (b : ℚ),
    cs.foldl (fun acc c => miouStep acc c.1 c.2.1 c.2.2) (a, b)
      = (a + (cs.filter (fun c => c.1 + c.2.1 ≠ 0)).length,
         b + ((cs.filter (fun c => c.1 + c.2.1 ≠ 0)).map
            (fun c => (c.2.2 : ℚ) / ((c.1 + c.2.1 - c.2.2 : Nat) : ℚ))).sum)
  | [], a, b => by simp
  | c :: cs, a, b => by
    rw [List.foldl_cons]
    by_cases h : c.1 + c.2.1 = 0
    · rw [show miouStep (a, b) c.1 c.2.1 c.2.2 = (a, b) by simp [miouStep, h]]
      rw [miouStep_foldl cs a b,
        List.filter_cons_of_neg (by simp [h])]
    · rw [show miouStep (a, b) c.1 c.2.1 c.2.2
          = (a + 1, b + (c.2.2 : ℚ) / ((c.1 + c.2.1 - c.2.2 : Nat) : ℚ)) by
        simp [miouStep, h]]
      rw [miouStep_foldl cs (a + 1) _,
        List.filter_cons_of_pos (by simp [h])]
      rw [List.length_cons, List.map_cons, List.sum_cons]
      refine Prod.ext (by omega) ?_
      simp only
      ring

lemma miouFinish_foldl (cs : List (Nat × Nat × Nat)) :
    maFinish (cs.foldl (fun acc c => miouStep acc c.1 c.2.1 c.2.2) (0, 0)) =
      meanIouSpec cs := by
  rw [miouStep_foldl]
  unfold maFinish meanIouSpec
  simp only [Nat.zero_add, zero_add]
  by_cases h : (List.filter (fun c => decide (c.1 + c.2.1 ≠ 0)) cs).length = 0
  · rw [if_neg (by omega),
      if_pos (by rw [List.isEmpty_iff_length_eq_zero]; exact h)]
  · rw [if_pos (by omega),
      if_neg (by rw [List.isEmpty_iff_length_eq_zero]; exact h)]

lemma segm_mean_accuracy_hmasks_eq_spec (label_hmask pred_hmask : Hmask)
    (h : hShape pred_hmask = hShape label_hmask) :
    segm_mean_accuracy_hmasks label_hmask pred_hmask =
      some (meanAccSpec (hmaskClassCounts label_hmask pred_hmask)) := by
  unfold segm_mean_accuracy_hmasks
  rw [if_neg (by simp [h])]
  rw [← maFinish_foldl]
  unfold hmaskClassCounts
  rw [List.foldl_map]

lemma segm_mean_accuracy_eq_spec (label_hmask : Hmask) (pred_imask : Imask)
    (h : label_hmask.all (fun p => p.map (·.length) = iShape pred_imask)) :
    segm_mean_accuracy label_hmask pred_imask =
      some (meanAccSpec (imaskClassCounts label_hmask pred_imask)) := by
  unfold segm_mean_accuracy
  rw [if_neg (by simp_all)]
  rw [← maFinish_foldl]
  unfold imaskClassCounts
  rw [List.foldl_map]

lemma seg_mean_iou_np_eq_spec (label_hmask : Hmask) (pred_imask : Imask)
    (h : label_hmask.all (fun p => p.map (·.length) = iShape pred_imask)) :
    seg_mean_iou_np label_hmask pred_imask =
      some (meanIouSpec (miouClassCounts label_hmask pred_imask)) := by
  unfold seg_mean_iou_np
  rw [if_neg (by simp_all)]
  rw [← miouFinish_foldl]
  unfold miouClassCounts
  rw [List.foldl_map]

end SegMetrics

namespace SegMetrics

lemma sum_eq_length_of_all_one : ∀ (xs : List ℚ),
    (∀ x ∈ xs, x = 1) → xs.sum = (xs.length : ℚ)
  | [], _ => by simp
  | x :: xs, h => by
    rw [List.sum_cons, h x (List.mem_cons_self x xs),
      sum_eq_length_of_all_one xs (fun y hy => h y (List.mem_cons_of_mem x hy)),
      List.length_cons]
    push_cast
    ring

lemma meanAccSpec_eq_one (cs : List (Nat × Nat))
    (h : ∀ c ∈ cs, c.2 = c.1) : meanAccSpec cs = 1 := by
  unfold meanAccSpec
  by_cases he : (cs.filter (fun c => c.1 ≠ 0)).isEmpty
  · rw [if_pos he]
  · rw [if_neg he]
    have hall : ∀ x ∈ (cs.filter (fun c => c.1 ≠ 0)).map
        (fun c => (c.2 : ℚ) / (c.1 : ℚ)), x = 1 := by
      intro x hx
      obtain ⟨c, hc, rfl⟩ := List.mem_map.mp hx
      have hne : c.1 ≠ 0 := by simpa using (List.mem_filter.mp hc).2
      rw [h c (List.mem_filter.mp hc).1]
      exact div_self (Nat.cast_ne_zero.mpr hne)
    rw [sum_eq_length_of_all_one _ hall, List.length_map]
    refine div_self (Nat.cast_ne_zero.mpr ?_)
    intro hz
    exact he (by rw [List.isEmpty_iff_length_eq_zero]; exact hz)

lemma meanIouSpec_eq_one (cs : List (Nat × Nat × Nat))
    (h : ∀ c ∈ cs, c.2.1 = c.1 ∧ c.2.2 = c.1) : meanIouSpec cs = 1 := by
  unfold meanIouSpec
  by_cases he : (cs.filter (fun c => c.1 + c.2.1 ≠ 0)).isEmpty
  · rw [if_pos he]
  · rw [if_neg he]
    have hall : ∀ x ∈ (cs.filter (fun c => c.1 + c.2.1 ≠ 0)).map
        (fun c => (c.2.2 : ℚ) / ((c.1 + c.2.1 - c.2.2 : Nat) : ℚ)), x = 1 := by
      intro x hx
      obtain ⟨c, hc, rfl⟩ := List.mem_map.mp hx
      have hne : c.1 + c.2.1 ≠ 0 := by
        have := (List.mem_filter.mp hc).2
        simp at this
        omega
      obtain ⟨h1, h2⟩ := h c (List.mem_filter.mp hc).1
      rw [h1, h2, show c.1 + c.1 - c.1 = c.1 from by omega]
      refine div_self (Nat.cast_ne_zero.mpr ?_)
      omega
    rw [sum_eq_length_of_all_one _ hall, List.length_map]
    refine div_self (Nat.cast_ne_zero.mpr ?_)
    intro hz
    exact he (by rw [List.isEmpty_iff_length_eq_zero]; exact hz)

end SegMetrics

/-- C4: the three skip-based mean-accuracy variants each return the mean,
over classes with nonzero ground-truth count `u_i`, of the per-class
accuracy `u_ii / u_i`; zero-support classes contribute to neither the sum
nor the averaging denominator, and the result is `1.0` when no class has
support. -/
theorem c4_mean_accuracy_skip_convention (label_hmask pred_hmask : Hmask)
    (label2 : Hmask) (pred2 : Imask)
    (h1 : hShape pred_hmask = hShape label_hmask)
    (h2 : label2.all (fun p => p.map (·.length) = iShape pred2)) :
    segm_mean_accuracy_hmasks label_hmask pred_hmask =
      some (meanAccSpec (hmaskClassCounts label_hmask pred_hmask)) ∧
    segm_mean_iou_imasks label_hmask pred_hmask =
      some (meanAccSpec (hmaskClassCounts label_hmask pred_hmask)) ∧
    segm_mean_accuracy label2 pred2 =
      some (meanAccSpec (imaskClassCounts label2 pred2)) :=
  ⟨segm_mean_accuracy_hmasks_eq_spec label_hmask pred_hmask h1,
   segm_mean_accuracy_hmasks_eq_spec label_hmask pred_hmask h1,
   segm_mean_accuracy_eq_spec label2 pred2 h2⟩

/-- C4 witness: one class with support and an empty class on the one-hot
side; two classes on the index-mask side. -/
theorem c4_mean_accuracy_skip_convention_witness :
    segm_mean_accuracy_hmasks [[[true, false]], [[false, false]]]
        [[[true, true]], [[false, true]]] =
      some (meanAccSpec (hmaskClassCounts [[[true, false]], [[false, false]]]
        [[[true, true]], [[false, true]]])) ∧
    segm_mean_iou_imasks [[[true, false]], [[false, false]]]
        [[[true, true]], [[false, true]]] =
      some (meanAccSpec (hmaskClassCounts [[[true, false]], [[false, false]]]
        [[[true, true]], [[false, true]]])) ∧
    segm_mean_accuracy [[[true, true]], [[false, false]]] [[0, 1]] =
      some (meanAccSpec (imaskClassCounts [[[true, true]], [[false, false]]]
        [[0, 1]])) :=
  c4_mean_accuracy_skip_convention [[[true, false]], [[false, false]]]
    [[[true, true]], [[false, true]]] [[[true, true]], [[false, false]]]
    [[0, 1]] rfl (by decide)

/-- C2 counterexample: `seg_mean_iou_imasks_np` with `ignore_bg=False`
mutates the caller: after the call on two distinct `[[-5]]` arrays the
caller holds `[[-4]]` in both — the in-place `+= 1` changed the input
arrays, so the function is not pure in the claimed sense. -/
theorem c2_counterexample_input_arrays_mutated :
    seg_mean_iou_imasks_np [[-5]] [[-5]] 2 false =
      some (0, [[-4]], [[-4]]) ∧
    ([[-4]] : Imask) ≠ [[-5]] := by
  constructor
  · simp [seg_mean_iou_imasks_np, shiftMasks, callerMasks, histTerms,
      histBins, interMask, iMap2, incrMask, flatI, nbinsOf, f32eps, iShape,
      List.range_succ, List.range_zero, List.count_cons, List.count_nil]
  · decide

/-- C2 amended: every metric function except `seg_mean_iou_imasks_np`
only reads its inputs and returns a scalar; `seg_mean_iou_imasks_np`
leaves the caller's arrays unchanged when `ignore_bg=True`, but with
`ignore_bg=False` it increments both caller arrays elementwise by one
(the in-place `+= 1`). -/
theorem c2_amended_caller_array_mutation (label_imask pred_imask : Imask)
    (num_classes : Nat) (rt rf : ℚ × Imask × Imask)
    (ht : seg_mean_iou_imasks_np label_imask pred_imask num_classes true =
      some rt)
    (hf : seg_mean_iou_imasks_np label_imask pred_imask num_classes false =
      some rf) :
    (rt.2.1 = label_imask ∧ rt.2.2 = pred_imask) ∧
    rf.2.1 = incrMask label_imask ∧ rf.2.2 = incrMask pred_imask := by
  unfold seg_mean_iou_imasks_np at ht hf
  by_cases hsh : iShape label_imask ≠ iShape pred_imask
  · rw [if_pos hsh] at ht
    exact absurd ht (by simp)
  · rw [if_neg hsh] at ht hf
    simp only at ht hf
    by_cases h1 : nbinsOf num_classes true = 0
    · rw [if_pos h1] at ht
      exact absurd ht (by simp)
    · rw [if_neg h1] at ht
      by_cases h2 : nbinsOf num_classes false = 0
      · rw [if_pos h2] at hf
        exact absurd hf (by simp)
      · rw [if_neg h2] at hf
        rw [Option.some_inj] at ht hf
        subst ht
        subst hf
        simp [callerMasks]

/-- C2 amended witness: a concrete call for each `ignore_bg` value. -/
theorem c2_amended_caller_array_mutation_witness :
    seg_mean_iou_imasks_np [[-5]] [[-5]] 2 true =
      some (0, [[-5]], [[-5]]) ∧
    seg_mean_iou_imasks_np [[-5]] [[-5]] 2 false =
      some (0, [[-4]], [[-4]]) ∧
    ((((0 : ℚ), [[-5]], [[-5]]) : ℚ × Imask × Imask).2.1 = [[-5]] ∧
      (((0 : ℚ), [[-5]], [[-5]]) : ℚ × Imask × Imask).2.2 = [[-5]]) ∧
    (((0 : ℚ), [[-4]], [[-4]]) : ℚ × Imask × Imask).2.1 = incrMask [[-5]] ∧
    (((0 : ℚ), [[-4]], [[-4]]) : ℚ × Imask × Imask).2.2 = incrMask [[-5]] :=
  ⟨by simp [seg_mean_iou_imasks_np, shiftMasks, callerMasks, histTerms,
      histBins, interMask, iMap2, incrMask, flatI, nbinsOf, f32eps, iShape,
      List.range_succ, List.range_zero, List.count_cons, List.count_nil],
   by simp [seg_mean_iou_imasks_np, shiftMasks, callerMasks, histTerms,
      histBins, interMask, iMap2, incrMask, flatI, nbinsOf, f32eps, iShape,
      List.range_succ, List.range_zero, List.count_cons, List.count_nil],
   c2_amended_caller_array_mutation [[-5]] [[-5]] 2 _ _
     (by simp [seg_mean_iou_imasks_np, shiftMasks, callerMasks, histTerms,
        histBins, interMask, iMap2, incrMask, flatI, nbinsOf, f32eps, iShape,
        List.range_succ, List.range_zero, List.count_cons, List.count_nil])
     (by simp [seg_mean_iou_imasks_np, shiftMasks, callerMasks, histTerms,
        histBins, interMask, iMap2, incrMask, flatI, nbinsOf, f32eps, iShape,
        List.range_succ, List.range_zero, List.count_cons, List.count_nil])⟩

namespace SegMetrics

lemma zipWith_eq_map_zip {α β γ : Type _} (f : α → β → γ)
    (xs : List α) (ys : List β) :
    List.zipWith f xs ys = (xs.zip ys).map (fun x => f x.1 x.2) := by
  rw [List.zip_eq_zipWith, List.map_zipWith]

lemma flatI_iMap2 (f : Int → Int → Int) :
    ∀ (a b : Imask), iShape a = iShape b →
      flatI (iMap2 f a b) = List.zipWith f (flatI a) (flatI b)
  | [], b, h => by
    have hb : b = [] := by
      rcases b with _ | ⟨s, b⟩
      · rfl
      · simp [iShape] at h
    subst hb
    simp [iMap2, flatI]
  | r :: a, [], h => by simp [iShape] at h
  | r :: a, s :: b, h => by
    simp only [iShape, List.map_cons, List.cons.injEq] at h
    show ((List.zipWith f r s :: iMap2 f a b).flatten : List Int) = _
    rw [List.flatten_cons,
      show flatI (r :: a) = r ++ flatI a from by simp [flatI],
      show flatI (s :: b) = s ++ flatI b from by simp [flatI],
      List.zipWith_append _ _ _ _ _ h.1]
    rw [show (iMap2 f a b).flatten = flatI (iMap2 f a b) from rfl,
      flatI_iMap2 f a b h.2]

lemma count_zipWith_inter_le_left (v : Int) (hv : v ≠ 0) :
    ∀ (xs ys : List Int),
      (List.zipWith (fun p l => if p = l then p else 0) xs ys).count v ≤
        xs.count v
  | [], ys => by simp
  | x :: xs, [] => by simp
  | x :: xs, y :: ys => by
    rw [List.zipWith_cons_cons, List.count_cons, List.count_cons]
    have ih := count_zipWith_inter_le_left v hv xs ys
    by_cases hxy : x = y
    · rw [if_pos hxy]
      omega
    · rw [if_neg hxy]
      have h0 : (((0 : Int) == v) = true) = False := by
        simp [beq_iff_eq]
        omega
      simp only [h0, if_false]
      omega

lemma count_zipWith_inter_le_right (v : Int) (hv : v ≠ 0) :
    ∀ (xs ys : List Int),
      (List.zipWith (fun p l => if p = l then p else 0) xs ys).count v ≤
        ys.count v
  | [], ys => by simp
  | x :: xs, [] => by simp
  | x :: xs, y :: ys => by
    rw [List.zipWith_cons_cons, List.count_cons, List.count_cons]
    have ih := count_zipWith_inter_le_right v hv xs ys
    by_cases hxy : x = y
    · rw [if_pos hxy, hxy]
      omega
    · rw [if_neg hxy]
      have h0 : (((0 : Int) == v) = true) = False := by
        simp [beq_iff_eq]
        omega
      simp only [h0, if_false]
      omega

lemma count_flat_interMask_le_left (v : Int) (hv : v ≠ 0) :
    ∀ (p l : Imask), (flatI (interMask p l)).count v ≤ (flatI p).count v
  | [], l => by simp [interMask, iMap2, flatI]
  | r :: p, [] => by simp [interMask, iMap2, flatI]
  | r :: p, s :: l => by
    show ((List.zipWith _ r s :: iMap2 _ p l).flatten).count v ≤ _
    rw [List.flatten_cons, List.count_append,
      show flatI (r :: p) = r ++ flatI p from by simp [flatI],
      List.count_append]
    exact Nat.add_le_add (count_zipWith_inter_le_left v hv r s)
      (count_flat_interMask_le_left v hv p l)

lemma count_flat_interMask_le_right (v : Int) (hv : v ≠ 0) :
    ∀ (p l : Imask), (flatI (interMask p l)).count v ≤ (flatI l).count v
  | [], l => by simp [interMask, iMap2, flatI]
  | r :: p, [] => by simp [interMask, iMap2, flatI]
  | r :: p, s :: l => by
    show ((List.zipWith _ r s :: iMap2 _ p l).flatten).count v ≤ _
    rw [List.flatten_cons, List.count_append,
      show flatI (s :: l) = s ++ flatI l from by simp [flatI],
      List.count_append]
    exact Nat.add_le_add (count_zipWith_inter_le_right v hv r s)
      (count_flat_interMask_le_right v hv p l)

lemma count_flat_interMask_eq (p l : Imask) (hsh : iShape p = iShape l)
    (v : Int) (hv : v ≠ 0) :
    (flatI (interMask p l)).count v = interPairCount p l v := by
  unfold interMask interPairCount
  rw [flatI_iMap2 _ p l hsh, zipWith_eq_map_zip, List.count_eq_countP,
    List.countP_map]
  refine List.countP_congr (fun x _ => ?_)
  simp only [Function.comp, beq_iff_eq, decide_eq_true_eq]
  by_cases h1 : x.1 = x.2
  · rw [if_pos h1]
    constructor
    · intro hxv
      exact ⟨hxv, h1 ▸ hxv⟩
    · exact fun hx => hx.1
  · rw [if_neg h1]
    constructor
    · intro h0
      exact absurd h0.symm hv
    · intro hx
      exact absurd (hx.1.trans hx.2.symm) h1

lemma iShape_incrMask (m : Imask) : iShape (incrMask m) = iShape m := by
  simp [iShape, incrMask]

lemma iShape_iMap2 (f : Int → Int → Int) :
    ∀ (a b : Imask), iShape a = iShape b → iShape (iMap2 f a b) = iShape a
  | [], b, _ => by simp [iMap2, iShape]
  | r :: a, [], h => by simp [iShape] at h
  | r :: a, s :: b, h => by
    simp only [iShape, List.map_cons, List.cons.injEq] at h
    simp only [iShape, iMap2, List.zipWith_cons_cons, List.map_cons,
      List.cons.injEq]
    refine ⟨?_, ?_⟩
    · rw [List.length_zipWith, h.1]
      omega
    · exact iShape_iMap2 f a b h.2

lemma shiftMasks_shape (label_imask pred_imask : Imask) (ignore_bg : Bool)
    (h : iShape label_imask = iShape pred_imask) :
    iShape (shiftMasks label_imask pred_imask ignore_bg).2 =
      iShape (shiftMasks label_imask pred_imask ignore_bg).1 := by
  unfold shiftMasks
  cases ignore_bg
  · simp only [Bool.false_eq_true, if_false]
    by_cases hneg : (flatI (incrMask label_imask)).any (· < 0)
    · rw [if_pos hneg]
      rw [iShape_iMap2 _ _ _ (by rw [iShape_incrMask, iShape_incrMask, h]),
        iShape_incrMask, iShape_incrMask, h]
    · rw [if_neg hneg]
      rw [iShape_incrMask, iShape_incrMask, h]
  · simp only [if_true]
    rw [iShape_iMap2 _ _ _ h.symm, h]

lemma sum_lt_length : ∀ (xs : List ℚ), xs ≠ [] → (∀ x ∈ xs, x < 1) →
    xs.sum < (xs.length : ℚ)
  | [], h, _ => absurd rfl h
  | x :: xs, _, h => by
    rw [List.sum_cons, List.length_cons]
    rcases xs with _ | ⟨y, ys⟩
    · simpa using h x (List.mem_cons_self x [])
    · have hrest := sum_lt_length (y :: ys) (by simp)
        (fun z hz => h z (List.mem_cons_of_mem x hz))
      have hx := h x (List.mem_cons_self _ _)
      push_cast
      push_cast at hrest
      linarith

end SegMetrics

namespace SegMetrics

lemma histTerms_eq (label' pred' : Imask) (nbins : Nat) :
    histTerms label' pred' nbins = (List.range nbins).map (fun (c : Nat) =>
      (((flatI (interMask pred' label')).count ((c : Int) + 1) : ℚ)) /
        (((flatI pred').count ((c : Int) + 1) : ℚ) +
          ((flatI label').count ((c : Int) + 1) : ℚ) -
          ((flatI (interMask pred' label')).count ((c : Int) + 1) : ℚ) +
          f32eps)) := by
  unfold histTerms histBins
  dsimp only
  rw [List.zip_map', List.zip_map', List.map_map]
  rfl

lemma histTerms_sum_formula (label' pred' : Imask) (nbins : Nat)
    (hsh : iShape pred' = iShape label') :
    (histTerms label' pred' nbins).sum / (nbins : ℚ) =
      miouHistFormula label' pred' nbins := by
  unfold miouHistFormula
  rw [histTerms_eq]
  congr 2
  refine List.map_congr_left (fun c _ => ?_)
  rw [count_flat_interMask_eq pred' label' hsh _ (by omega)]

end SegMetrics

/-- C6: on equal-shape index masks (with at least one histogram bin),
`seg_mean_iou_imasks_np` returns the mean over ALL histogram bins of
`I / (P + L - I + eps)` for the internally shifted masks, `eps` the
float32 machine epsilon; zero-support bins stay in the averaging
denominator and contribute the term `0 / eps = 0` instead of being
skipped. -/
theorem c6_histogram_miou_includes_empty_bins (label_imask pred_imask : Imask)
    (num_classes : Nat) (ignore_bg : Bool)
    (hsh : iShape label_imask = iShape pred_imask)
    (hnb : nbinsOf num_classes ignore_bg ≠ 0) :
    (seg_mean_iou_imasks_np label_imask pred_imask num_classes
        ignore_bg).map (fun r => r.1) =
      some (miouHistFormula
        (shiftMasks label_imask pred_imask ignore_bg).1
        (shiftMasks label_imask pred_imask ignore_bg).2
        (nbinsOf num_classes ignore_bg)) ∧
    (∀ c : Nat,
      (flatI (shiftMasks label_imask pred_imask ignore_bg).2).count
          ((c : Int) + 1) = 0 →
      (flatI (shiftMasks label_imask pred_imask ignore_bg).1).count
          ((c : Int) + 1) = 0 →
      interPairCount (shiftMasks label_imask pred_imask ignore_bg).2
          (shiftMasks label_imask pred_imask ignore_bg).1 ((c : Int) + 1) = 0 ∧
      ((interPairCount (shiftMasks label_imask pred_imask ignore_bg).2
          (shiftMasks label_imask pred_imask ignore_bg).1 ((c : Int) + 1) : ℚ) /
        ((0 : ℚ) + (0 : ℚ) -
          (interPairCount (shiftMasks label_imask pred_imask ignore_bg).2
            (shiftMasks label_imask pred_imask ignore_bg).1
            ((c : Int) + 1) : ℚ) + f32eps)) = 0) := by
  have hsh' : iShape (shiftMasks label_imask pred_imask ignore_bg).2 =
      iShape (shiftMasks label_imask pred_imask ignore_bg).1 :=
    shiftMasks_shape label_imask pred_imask ignore_bg hsh
  constructor
  · unfold seg_mean_iou_imasks_np
    rw [if_neg (by simp [hsh])]
    simp only [hnb, if_false, Option.map_some]
    rw [histTerms_sum_formula _ _ _ hsh']
    rfl
  · intro c hp _hl
    have hI : interPairCount (shiftMasks label_imask pred_imask ignore_bg).2
        (shiftMasks label_imask pred_imask ignore_bg).1 ((c : Int) + 1) = 0 := by
      rw [← count_flat_interMask_eq _ _ hsh' _ (by omega)]
      have := count_flat_interMask_le_left ((c : Int) + 1) (by omega)
        (shiftMasks label_imask pred_imask ignore_bg).2
        (shiftMasks label_imask pred_imask ignore_bg).1
      omega
    refine ⟨hI, ?_⟩
    rw [hI]
    simp

/-- C6 witness: empty equal-shape masks with one bin (a zero-support
bin), and the zero-support term at bin 7. -/
theorem c6_histogram_miou_includes_empty_bins_witness :
    ((seg_mean_iou_imasks_np [] [] 1 false).map (fun r => r.1) =
      some (miouHistFormula (shiftMasks [] [] false).1
        (shiftMasks [] [] false).2 (nbinsOf 1 false))) ∧
    (interPairCount (shiftMasks ([] : Imask) [] false).2
        (shiftMasks ([] : Imask) [] false).1 ((7 : Int) + 1) = 0 ∧
      ((interPairCount (shiftMasks ([] : Imask) [] false).2
          (shiftMasks ([] : Imask) [] false).1 ((7 : Int) + 1) : ℚ) /
        ((0 : ℚ) + (0 : ℚ) -
          (interPairCount (shiftMasks ([] : Imask) [] false).2
            (shiftMasks ([] : Imask) [] false).1 ((7 : Int) + 1) : ℚ) +
          f32eps)) = 0) :=
  ⟨(c6_histogram_miou_includes_empty_bins [] [] 1 false rfl (by decide)).1,
   (c6_histogram_miou_includes_empty_bins [] [] 1 false rfl (by decide)).2
     7 (by decide) (by decide)⟩

namespace SegMetrics

lemma countP_zip_self_eq_length {α : Type _} (l : List α) (p : α × α → Bool)
    (h : ∀ a ∈ l, p (a, a) = true) :
    (l.zip l).countP p = l.length := by
  rw [zip_self, List.countP_map]
  rw [List.countP_eq_length]
  intro a ha
  exact h a ha

lemma seg_pixel_accuracy_np_self (m : Imask) (v : Int) (uv : Bool)
    (hm : 0 < iSize m) (hv : ∀ x ∈ flatI m, x ≠ v) :
    seg_pixel_accuracy_np m m v uv = some 1 := by
  unfold seg_pixel_accuracy_np
  rw [if_neg (by simp)]
  have hlen : (0 : ℚ) < ((flatI m).length : ℚ) := by
    exact_mod_cast hm
  cases uv
  · simp only [Bool.false_eq_true, if_false]
    rw [if_neg (by omega : ¬ iSize m = 0)]
    rw [countP_zip_self_eq_length (flatI m) _ (fun a _ => by simp)]
    rw [show iSize m = (flatI m).length from rfl]
    rw [div_self (by positivity)]
  · simp only [if_true]
    have hm' : 0 < (flatI m).length := hm
    have hij : (flatI m).countP (fun x => decide ¬ x = v) = (flatI m).length := by
      rw [List.countP_eq_length]
      intro a ha
      simpa using hv a ha
    rw [hij, if_neg (by omega : ¬ (flatI m).length = 0)]
    rw [countP_zip_self_eq_length (flatI m) _
      (fun a ha => by simp [hv a ha])]
    rw [div_self (by positivity)]

lemma hmaskClassCounts_self (h : Hmask) :
    ∀ c ∈ hmaskClassCounts h h, c.2 = c.1 := by
  intro c hc
  unfold hmaskClassCounts at hc
  rw [zip_self, List.map_map] at hc
  obtain ⟨p, _, rfl⟩ := List.mem_map.mp hc
  exact bInter_self p

lemma segm_mean_accuracy_hmasks_self (h : Hmask) :
    segm_mean_accuracy_hmasks h h = some 1 := by
  rw [segm_mean_accuracy_hmasks_eq_spec h h rfl,
    meanAccSpec_eq_one _ (hmaskClassCounts_self h)]

lemma segm_mean_iou_imasks_eq_hmasks (a b : Hmask) :
    segm_mean_iou_imasks a b = segm_mean_accuracy_hmasks a b := rfl

lemma onehotOf_enum_plane (n : Nat) (m : Imask) :
    ∀ li ∈ (onehotOf n m).enum, li.2 = iPlaneEq m (li.1 : Int) := by
  intro li hli
  rw [List.mem_enum_iff_getElem?] at hli
  unfold onehotOf at hli
  by_cases hlt : li.1 < n
  · rw [List.getElem?_map, List.getElem?_range hlt] at hli
    simp at hli
    exact hli.symm
  · rw [List.getElem?_map,
      List.getElem?_eq_none (by simpa [List.length_range] using hlt)] at hli
    cases hli

lemma onehotOf_all_shape (n : Nat) (m : Imask) :
    (onehotOf n m).all (fun p => p.map (·.length) = iShape m) = true := by
  rw [List.all_eq_true]
  intro p hp
  unfold onehotOf at hp
  obtain ⟨i, _, rfl⟩ := List.mem_map.mp hp
  simp [iPlaneEq, iShape]

lemma imaskClassCounts_onehot_self (n : Nat) (m : Imask) :
    ∀ c ∈ imaskClassCounts (onehotOf n m) m, c.2 = c.1 := by
  intro c hc
  unfold imaskClassCounts at hc
  obtain ⟨li, hli, rfl⟩ := List.mem_map.mp hc
  simp only
  rw [onehotOf_enum_plane n m li hli]
  exact bInter_self _

lemma miouClassCounts_onehot_self (n : Nat) (m : Imask) :
    ∀ c ∈ miouClassCounts (onehotOf n m) m, c.2.1 = c.1 ∧ c.2.2 = c.1 := by
  intro c hc
  unfold miouClassCounts at hc
  obtain ⟨li, hli, rfl⟩ := List.mem_map.mp hc
  simp only
  rw [onehotOf_enum_plane n m li hli]
  exact ⟨rfl, bInter_self _⟩

lemma segm_mean_accuracy_onehot_self (n : Nat) (m : Imask) :
    segm_mean_accuracy (onehotOf n m) m = some 1 := by
  rw [segm_mean_accuracy_eq_spec (onehotOf n m) m (onehotOf_all_shape n m),
    meanAccSpec_eq_one _ (imaskClassCounts_onehot_self n m)]

lemma seg_mean_iou_np_onehot_self (n : Nat) (m : Imask) :
    seg_mean_iou_np (onehotOf n m) m = some 1 := by
  rw [seg_mean_iou_np_eq_spec (onehotOf n m) m (onehotOf_all_shape n m),
    meanIouSpec_eq_one _ (miouClassCounts_onehot_self n m)]

end SegMetrics

namespace SegMetrics

lemma f32eps_pos : (0 : ℚ) < f32eps := by norm_num [f32eps]

lemma sum_u_ratio (us : List Nat) :
    ((us.map (fun (u : Nat) => (u : ℚ) / ((u : ℚ) + f32eps))).sum ≤
      (us.countP (fun u => 0 < u) : ℚ)) ∧
    (0 < us.countP (fun u => 0 < u) →
      (us.map (fun (u : Nat) => (u : ℚ) / ((u : ℚ) + f32eps))).sum <
        (us.countP (fun u => 0 < u) : ℚ)) := by
  induction us with
  | nil => simp
  | cons u us ih =>
    rw [List.map_cons, List.sum_cons, List.countP_cons]
    by_cases hu : 0 < u
    · have hterm : (u : ℚ) / ((u : ℚ) + f32eps) < 1 := by
        rw [div_lt_one (by
          linarith [f32eps_pos, (Nat.cast_nonneg u : (0 : ℚ) ≤ (u : ℚ))])]
        linarith [f32eps_pos]
      rw [if_pos (by simpa using hu)]
      push_cast
      constructor
      · linarith [ih.1]
      · intro _
        linarith [ih.1]
    · have hu0 : u = 0 := by omega
      subst hu0
      rw [if_neg (by simp)]
      rw [show ((0 : Nat) : ℚ) / (((0 : Nat) : ℚ) + f32eps) = 0 by
        simp]
      rw [zero_add]
      exact ih

lemma miou2Sample_self_lt_one (s : Hmask) (hs : ∃ p ∈ s, 0 < bSum p) :
    miou2Sample (s, s) < 1 := by
  have hstats : ((s.zip s).map
        (fun planes => (bSum planes.1, bSum planes.2, bInter planes.1 planes.2)))
      = (s.map bSum).map (fun u => (u, u, u)) := by
    rw [zip_self, List.map_map, List.map_map]
    exact List.map_congr_left (fun p _ => by
      simp [Function.comp, bInter_self p])
  have hcount : (((s.map bSum).map (fun u => (u, u, u))).countP
        (fun c => 0 < c.1 + c.2.1))
      = (s.map bSum).countP (fun u => 0 < u) := by
    rw [List.countP_map]
    refine List.countP_congr (fun u _ => by
      simp [Function.comp])
  have hsum : (((s.map bSum).map (fun u => (u, u, u))).map
        (fun c => (c.2.2 : ℚ) /
          ((c.1 : ℚ) + (c.2.1 : ℚ) - (c.2.2 : ℚ) + f32eps))).sum
      = ((s.map bSum).map (fun (u : Nat) => (u : ℚ) / ((u : ℚ) + f32eps))).sum := by
    rw [List.map_map]
    refine congrArg List.sum (List.map_congr_left (fun u _ => ?_))
    simp only [Function.comp]
    rw [show ((u : ℚ) + (u : ℚ) - (u : ℚ) + f32eps) = (u : ℚ) + f32eps by ring]
  have hk : 0 < (s.map bSum).countP (fun u => 0 < u) := by
    rw [List.countP_pos_iff]
    obtain ⟨p, hp, hbp⟩ := hs
    exact ⟨bSum p, List.mem_map_of_mem bSum hp, by simpa using hbp⟩
  unfold miou2Sample
  dsimp only
  rw [hstats, hcount, hsum]
  rw [div_lt_one (by
    have h1 : (0 : ℚ) ≤ (((s.map bSum).countP (fun u => 0 < u) : Nat) : ℚ) :=
      Nat.cast_nonneg _
    linarith [f32eps_pos])]
  have := (sum_u_ratio (s.map bSum)).2 hk
  linarith

lemma segm_mean_iou2_self_lt_one (hb : Hmask4) (hne : hb ≠ [])
    (hsup : ∀ s ∈ hb, ∃ p ∈ s, 0 < bSum p) :
    ∃ q, segm_mean_iou2 hb hb = some q ∧ q < 1 := by
  unfold segm_mean_iou2
  rw [if_neg (by simp)]
  rw [if_neg (fun h => hne (List.length_eq_zero.mp h))]
  refine ⟨_, rfl, ?_⟩
  rw [zip_self, List.map_map]
  have hall : ∀ x ∈ hb.map (miou2Sample ∘ fun a => (a, a)), x < 1 := by
    intro x hx
    obtain ⟨t, ht, rfl⟩ := List.mem_map.mp hx
    exact miou2Sample_self_lt_one t (hsup t ht)
  have hlt := sum_lt_length _ (by simpa using hne) hall
  rw [div_lt_one (by
    have : 0 < hb.length := List.length_pos.mpr hne
    exact_mod_cast this)]
  simpa using hlt

lemma histTerms_all_lt_one (label' pred' : Imask) (nbins : Nat) :
    ∀ t ∈ histTerms label' pred' nbins, t < 1 := by
  intro t ht
  rw [histTerms_eq] at ht
  obtain ⟨c, _, rfl⟩ := List.mem_map.mp ht
  have hIP := count_flat_interMask_le_left ((c : Int) + 1) (by omega)
    pred' label'
  have hIL := count_flat_interMask_le_right ((c : Int) + 1) (by omega)
    pred' label'
  have hIP' : ((flatI (interMask pred' label')).count ((c : Int) + 1) : ℚ) ≤
      ((flatI pred').count ((c : Int) + 1) : ℚ) := by exact_mod_cast hIP
  have hIL' : ((flatI (interMask pred' label')).count ((c : Int) + 1) : ℚ) ≤
      ((flatI label').count ((c : Int) + 1) : ℚ) := by exact_mod_cast hIL
  have hI0 : (0 : ℚ) ≤
      ((flatI (interMask pred' label')).count ((c : Int) + 1) : ℚ) := by
    positivity
  rw [div_lt_one (by linarith [f32eps_pos])]
  linarith [f32eps_pos]

lemma seg_mean_iou_imasks_np_self_lt_one (mk : Imask) (k : Nat)
    (hk : 1 ≤ k) :
    ∃ r, seg_mean_iou_imasks_np mk mk k false = some r ∧ r.1 < 1 := by
  unfold seg_mean_iou_imasks_np
  rw [if_neg (by simp)]
  dsimp only
  rw [if_neg (by simp [nbinsOf]; omega)]
  refine ⟨_, rfl, ?_⟩
  have hlenT : (histTerms (shiftMasks mk mk false).1 (shiftMasks mk mk false).2
      (nbinsOf k false)).length = nbinsOf k false := by
    rw [histTerms_eq, List.length_map, List.length_range]
  have hTne : histTerms (shiftMasks mk mk false).1 (shiftMasks mk mk false).2
      (nbinsOf k false) ≠ [] := by
    intro h
    rw [h] at hlenT
    simp [nbinsOf] at hlenT
    omega
  have hs := sum_lt_length _ hTne
    (histTerms_all_lt_one (shiftMasks mk mk false).1
      (shiftMasks mk mk false).2 (nbinsOf k false))
  rw [div_lt_one (by
    have : (0 : Nat) < nbinsOf k false := by simp [nbinsOf]; omega
    exact_mod_cast this)]
  rw [hlenT] at hs
  exact hs

end SegMetrics

/-- C1 counterexample: on the identical 1×1 masks `[[0]]` with one class,
`seg_mean_iou_imasks_np` returns `1/(1 + eps) = 8388608/8388609`, not
exactly `1.0` — the epsilon added to the union keeps the eps-smoothed
variants strictly below one. -/
theorem c1_counterexample_eps_iou_not_one :
    (seg_mean_iou_imasks_np [[0]] [[0]] 1 false).map (fun r => r.1) =
      some (8388608 / 8388609) ∧
    ((8388608 : ℚ) / 8388609) ≠ 1 := by
  constructor
  · norm_num [seg_mean_iou_imasks_np, shiftMasks, callerMasks, histTerms,
      histBins, interMask, iMap2, incrMask, flatI, nbinsOf, f32eps, iShape,
      List.range_succ, List.range_zero, List.count_cons, List.count_nil]
  · norm_num

/-- C1 amended: with a prediction identical to the label (no vague
pixels), `seg_pixel_accuracy_np` (on a nonempty mask), both one-hot
mean-accuracy variants, the one-hot-vs-index variant, and the skip-based
`seg_mean_iou_np` return exactly `1.0`; the epsilon-smoothed variants do
NOT: `segm_mean_iou2` (nonempty batch, every sample with some supported
class) and `seg_mean_iou_imasks_np` (at least one class) return a value
strictly below `1.0`. -/
theorem c1_amended_identical_masks_metric_values (m : Imask) (v : Int)
    (uv : Bool) (hm : 0 < iSize m) (hv : ∀ x ∈ flatI m, x ≠ v)
    (h : Hmask) (n : Nat) (mi : Imask)
    (hb : Hmask4) (hbne : hb ≠ [])
    (hbsup : ∀ s ∈ hb, ∃ p ∈ s, 0 < bSum p)
    (mk : Imask) (k : Nat) (hk : 1 ≤ k) :
    seg_pixel_accuracy_np m m v uv = some 1 ∧
    segm_mean_accuracy_hmasks h h = some 1 ∧
    segm_mean_iou_imasks h h = some 1 ∧
    segm_mean_accuracy (onehotOf n mi) mi = some 1 ∧
    seg_mean_iou_np (onehotOf n mi) mi = some 1 ∧
    (∃ q, segm_mean_iou2 hb hb = some q ∧ q < 1) ∧
    (∃ r, seg_mean_iou_imasks_np mk mk k false = some r ∧ r.1 < 1) :=
  ⟨seg_pixel_accuracy_np_self m v uv hm hv,
   segm_mean_accuracy_hmasks_self h,
   (segm_mean_iou_imasks_eq_hmasks h h).trans
     (segm_mean_accuracy_hmasks_self h),
   segm_mean_accuracy_onehot_self n mi,
   seg_mean_iou_np_onehot_self n mi,
   segm_mean_iou2_self_lt_one hb hbne hbsup,
   seg_mean_iou_imasks_np_self_lt_one mk k hk⟩

/-- C1 amended witness at small concrete masks. -/
theorem c1_amended_identical_masks_metric_values_witness :
    seg_pixel_accuracy_np [[0]] [[0]] (-1) false = some 1 ∧
    segm_mean_accuracy_hmasks [[[true]]] [[[true]]] = some 1 ∧
    segm_mean_iou_imasks [[[true]]] [[[true]]] = some 1 ∧
    segm_mean_accuracy (onehotOf 1 [[0]]) [[0]] = some 1 ∧
    seg_mean_iou_np (onehotOf 1 [[0]]) [[0]] = some 1 ∧
    (∃ q, segm_mean_iou2 [[[[true]]]] [[[[true]]]] = some q ∧ q < 1) ∧
    (∃ r, seg_mean_iou_imasks_np [[0]] [[0]] 1 false = some r ∧ r.1 < 1) :=
  c1_amended_identical_masks_metric_values [[0]] (-1) false (by decide)
    (by decide) [[[true]]] 1 [[0]] [[[[true]]]] (by decide) (by decide)
    [[0]] 1 (by decide)
